import Mathlib

/-!
Shallow embedding of the Pyhandling library (TheArtur128/Pyhandling) for
checking its natural-language specification against the code.

The embedded modules are `pyhandling/handlers.py` (ActionChain, post_partial,
`then`), `pyhandling/tools.py` (Flag, nothing, ArgumentKey, ArgumentPack),
`pyhandling/contexting.py` (contextual, context_oriented, contexted,
saving_context, to_context), `pyhandling/monads.py` (bad, maybe, until_error)
and `pyhandling/utils.py` (until_error of the older layer).

Python conventions used throughout the embedding:
* Python runtime errors (NameError, IndexError, KeyError, TypeError) are an
  explicit `PyErr` value; fallible code returns `Except PyErr _`.
* Python `None` is `Option.none`; a value that is definitely not `None` is
  `Option.some _`.
* A Python `*args, **kwargs` call is modelled by a single value where only one
  positional argument flows through the code, and by an explicit positional
  list plus keyword association list where the argument plumbing itself is the
  subject of the claim, as for post_partial.
-/

set_option autoImplicit false

namespace Pyhandling

/-- Python runtime errors that the embedded code can raise. -/
inductive PyErr where
  | nameError
  | indexError
  | keyError
  | typeError
  deriving DecidableEq, Repr

/-! ### ActionChain (`pyhandling/handlers.py`)

`ActionChain.__call__` is

```
return reduce(
    lambda resource, handler: handler(resource),
    (self.handlers[0](*args, **kwargs), *self.handlers[1:])
) if self.handlers else resource
```

With a non-empty handlers tuple this folds each following handler over the
previous result, starting from `handlers[0]` applied to the call arguments.
With an empty handlers tuple the `else` branch evaluates the name `resource`,
which is bound nowhere in `__call__` (its only occurrences are parameters of
the inner lambda and of unrelated functions), so Python raises `NameError`.
-/

/-- One call of `ActionChain.__call__` for a chain whose stored handlers tuple
is `handlers`, on the single call argument `x`.  Translated from
`handlers.py` lines 117-121; the empty-handlers branch reads the unbound name
`resource` and therefore raises `NameError`. -/
def chain_call {V : Type} (handlers : List (V → V)) (x : V) : Except PyErr V :=
  match handlers with
  | [] => Except.error PyErr.nameError
  | h :: t => Except.ok (List.foldl (fun resource handler => handler resource) (h x) t)

/-- Sequential application as the spec words it: the callables are applied one
after another in order, each receiving the previous output.  This is the
spec-side definition that `chain_call` is compared against. -/
def seq_apply {V : Type} : List (V → V) → V → V
  | [], x => x
  | f :: fs, x => seq_apply fs (f x)

/-- Stored handlers tuple of the exported constant `then = ActionChain(tuple())`
(`handlers.py` lines 553-563): `get_with_aligned_chains` of the empty tuple is
the empty tuple. -/
def then_handlers (V : Type) : List (V → V) := []

theorem seq_apply_eq_foldl {V : Type} (hs : List (V → V)) (x : V) :
    seq_apply hs x = List.foldl (fun resource handler => handler resource) x hs := by
  induction hs generalizing x with
  | nil => rfl
  | cons f fs ih => simp [seq_apply, List.foldl, ih]

theorem seq_apply_append_last {V : Type} (hs : List (V → V)) (g : V → V) (x : V) :
    seq_apply (hs ++ [g]) x = g (seq_apply hs x) := by
  induction hs generalizing x with
  | nil => rfl
  | cons f fs ih => simp [seq_apply, ih]

/-- C1: For every non-empty sequence of callables and any call argument, the
ActionChain built from that sequence applies the callables one after another
in order: the first callable receives the call argument, each following
callable receives the output of the previous callable (`chain_call (h :: t) x`
equals the sequential application of `t` to `h x`), and the chain result is
the output of the last callable (`chain_call (hs ++ [g]) x` is `g` applied to
the sequential result of `hs`). -/
theorem c1_action_chain_applies_in_order {V : Type} (h : V → V) (t : List (V → V))
    (hs : List (V → V)) (g : V → V) (x : V) :
    chain_call (h :: t) x = Except.ok (seq_apply t (h x)) ∧
    chain_call (hs ++ [g]) x = Except.ok (g (seq_apply hs x)) := by
  constructor
  · simp [chain_call, seq_apply_eq_foldl]
  · cases hs with
    | nil => rfl
    | cons f fs =>
        rw [List.cons_append]
        show Except.ok (List.foldl (fun resource handler => handler resource) (f x) (fs ++ [g]))
          = Except.ok (g (seq_apply (f :: fs) x))
        rw [← seq_apply_eq_foldl, seq_apply_append_last]
        rfl

/-- C8: Calling an ActionChain constructed with zero handlers (including the
exported `then` constant) raises `NameError` on every argument, because the
empty-handlers branch of `__call__` reads the unbound name `resource`; in
particular it never returns the input value, despite the promise of the docstring. -/
theorem c8_empty_chain_raises_name_error (V : Type) (x : V) :
    chain_call (then_handlers V) x = Except.error PyErr.nameError ∧
    chain_call ([] : List (V → V)) x = Except.error PyErr.nameError ∧
    chain_call (then_handlers V) x ≠ Except.ok x := by
  refine ⟨rfl, rfl, ?_⟩
  simp [then_handlers, chain_call]

/-! ### ActionChain construction and flattening (`pyhandling/handlers.py`)

Structural model of chain construction.  A handler is either an opaque plain
callable (`atom`, identified by a number) or an `ActionChain` holding its
stored handlers tuple (`chain`).  `get_with_aligned_chains` is

```
return post_partial(get_collection_with_reduced_nesting, 1)(
    handler.handlers if type(handler) is ActionChain else (handler, )
    for handler in handlers
)
```

i.e. each handler that is exactly an ActionChain is replaced by its stored
handlers, every other handler is kept, and the one-level nesting reduction
concatenates the resulting tuples.  `__init__` stores the aligned tuple;
`clone_with` (hence `__or__`) rebuilds a chain from `(*self.handlers,
*handlers)`. -/

/-- A handler as seen by `ActionChain`: a plain callable (opaque id) or an
ActionChain with its stored handlers tuple. -/
inductive HNode where
  | atom (id : Nat)
  | chain (handlers : List HNode)

/-- Whether a handler is (exactly) an ActionChain, as `type(handler) is
ActionChain` checks. -/
def HNode.isChain : HNode → Bool
  | .chain _ => true
  | .atom _ => false

/-- The stored `handlers` tuple of a chain (a plain callable has none). -/
def handlersOf : HNode → List HNode
  | .chain hs => hs
  | .atom _ => []

/-- `ActionChain.get_with_aligned_chains` (`handlers.py` lines 185-195):
replace each direct ActionChain by its own handlers, one level deep. -/
def get_with_aligned_chains (handlers : List HNode) : List HNode :=
  handlers.flatMap fun handler =>
    match handler with
    | .chain inner => inner
    | .atom i => [.atom i]

/-- `ActionChain.__init__` (`handlers.py` lines 107-115): store the aligned
input handlers. -/
def mkChain (inputs : List HNode) : HNode :=
  .chain (get_with_aligned_chains inputs)

/-- `ActionChain.__or__` via `clone_with` (`handlers.py` lines 124-152):
rebuild a chain from the current handlers followed by the new node. -/
def chain_or (a : HNode) (action_node : HNode) : HNode :=
  mkChain (handlersOf a ++ [action_node])

/-- A handlers tuple with no direct ActionChain instances in it. -/
def chainFree (hs : List HNode) : Prop := ∀ h ∈ hs, h.isChain = false

instance chainFree_decidable (hs : List HNode) : Decidable (chainFree hs) :=
  List.decidableBAll _ hs

theorem aligned_append (as bs : List HNode) :
    get_with_aligned_chains (as ++ bs) =
      get_with_aligned_chains as ++ get_with_aligned_chains bs := by
  simp [get_with_aligned_chains]

theorem aligned_of_chainFree (hs : List HNode) (h : chainFree hs) :
    get_with_aligned_chains hs = hs := by
  induction hs with
  | nil => rfl
  | cons x t ih =>
      have hx : x.isChain = false := h x (List.mem_cons_self x t)
      have ht : chainFree t := fun y hy => h y (List.mem_cons_of_mem x hy)
      cases x with
      | atom i => simp [get_with_aligned_chains] at ih ⊢; exact ih ht
      | chain inner => simp [HNode.isChain] at hx

theorem aligned_singleton_chain (bs : List HNode) :
    get_with_aligned_chains [.chain bs] = bs := by
  simp [get_with_aligned_chains]

theorem chainFree_append (as bs : List HNode)
    (ha : chainFree as) (hb : chainFree bs) : chainFree (as ++ bs) := by
  intro h hmem
  rcases List.mem_append.mp hmem with h1 | h2
  · exact ha h h1
  · exact hb h h2

/-- C9: Every ActionChain keeps the flattening invariant.  If every nested
chain passed to the constructor has a chain-free handlers tuple, then the
stored tuple of the built chain contains no direct ActionChain instances; the
handlers of `a | b` are the concatenation of the handlers of `a` and of `b`;
and chain composition is associative at the handlers level. -/
theorem c9_flattening_invariant (inputs as bs cs : List HNode)
    (hin : ∀ h ∈ inputs, chainFree (handlersOf h))
    (ha : chainFree as) (hb : chainFree bs) (hc : chainFree cs) :
    chainFree (handlersOf (mkChain inputs)) ∧
    handlersOf (chain_or (.chain as) (.chain bs)) = as ++ bs ∧
    handlersOf (chain_or (chain_or (.chain as) (.chain bs)) (.chain cs)) =
      handlersOf (chain_or (.chain as) (chain_or (.chain bs) (.chain cs))) := by
  have or_eq : ∀ xs ys : List HNode, chainFree xs →
      chain_or (.chain xs) (.chain ys) = .chain (xs ++ ys) := by
    intro xs ys hxs
    simp only [chain_or, mkChain, handlersOf, aligned_append,
      aligned_of_chainFree xs hxs, aligned_singleton_chain]
  refine ⟨?_, ?_, ?_⟩
  · intro h hmem
    simp only [mkChain, handlersOf, get_with_aligned_chains] at hmem
    rcases List.mem_flatMap.mp hmem with ⟨src, hsrc, hin2⟩
    cases src with
    | atom i =>
        simp only [List.mem_singleton] at hin2
        subst hin2; rfl
    | chain inner =>
        have := hin _ hsrc
        exact this h hin2
  · rw [or_eq as bs ha]; rfl
  · rw [or_eq as bs ha, or_eq bs cs hb,
      or_eq (as ++ bs) cs (chainFree_append as bs ha hb),
      or_eq as (bs ++ cs) ha]
    simp [handlersOf, List.append_assoc]

/-- Closed instantiation of `c9_flattening_invariant` at concrete chains. -/
theorem c9_flattening_invariant_witness :
    chainFree (handlersOf (mkChain [.atom 0, .chain [.atom 1, .atom 2]])) ∧
    handlersOf (chain_or (.chain [.atom 0]) (.chain [.atom 1, .atom 2])) =
      [.atom 0] ++ [.atom 1, .atom 2] ∧
    handlersOf (chain_or (chain_or (.chain [.atom 0]) (.chain [.atom 1, .atom 2]))
        (.chain [.atom 3])) =
      handlersOf (chain_or (.chain [.atom 0])
        (chain_or (.chain [.atom 1, .atom 2]) (.chain [.atom 3]))) :=
  c9_flattening_invariant [.atom 0, .chain [.atom 1, .atom 2]]
    [.atom 0] [.atom 1, .atom 2] [.atom 3]
    (by decide) (by decide) (by decide) (by decide)

/-! ### post_partial (`pyhandling/handlers.py` lines 290-301)

```
@wraps(func)
def wrapper(*wrapper_args, **wrapper_kwargs) -> any:
    return func(*wrapper_args, *args, **wrapper_kwargs, **kwargs)
```

Positional arguments are explicit lists; keyword arguments are association
lists read in dict insertion order. -/

/-- The wrapper built by post_partial(func, *args, **kwargs): the pre-bound positional arguments
go after the positional arguments of the final call, the pre-bound keywords
after the keywords of the final call. -/
def post_partial {α β : Type} (func : List α → List (String × α) → β)
    (args : List α) (kwargs : List (String × α)) :
    List α → List (String × α) → β :=
  fun wrapper_args wrapper_kwargs =>
    func (wrapper_args ++ args) (wrapper_kwargs ++ kwargs)

/-- Model of `functools.partial`: its call is
`func(*args, *fargs, **{**keywords, **fkeywords})`, so the pre-bound
positional arguments go before the ones of the final call. -/
def partial_prepending {α β : Type} (func : List α → List (String × α) → β)
    (args : List α) (kwargs : List (String × α)) :
    List α → List (String × α) → β :=
  fun fargs fkwargs => func (args ++ fargs) (kwargs ++ fkwargs)

/-- C7: post_partial(f, a..., **k)(b..., **k2) calls `f` with the pre-bound
positional arguments appended after the positional arguments of the final call,
i.e. equals `f(b..., a..., **k2, **k)`; and it differs from
`functools.partial`, which prepends them, already on a concrete input. -/
theorem c7_post_bound_arguments_appended {α β : Type}
    (func : List α → List (String × α) → β)
    (args : List α) (kwargs : List (String × α))
    (call_args : List α) (call_kwargs : List (String × α)) :
    post_partial func args kwargs call_args call_kwargs =
      func (call_args ++ args) (call_kwargs ++ kwargs) ∧
    post_partial ((fun a _ => a) : List Nat → List (String × Nat) → List Nat)
        [0] [] [1] [] = [1, 0] ∧
    partial_prepending ((fun a _ => a) : List Nat → List (String × Nat) → List Nat)
        [0] [] [1] [] = [0, 1] ∧
    post_partial ((fun a _ => a) : List Nat → List (String × Nat) → List Nat)
        [0] [] [1] [] ≠
      partial_prepending ((fun a _ => a) : List Nat → List (String × Nat) → List Nat)
        [0] [] [1] [] := by
  refine ⟨rfl, rfl, rfl, ?_⟩
  decide

/-! ### contextual values (`pyhandling/contexting.py`)

`contextual` is the basic `ContextRoot` form: a main value paired with a
context.  Iterating a `ContextRoot` yields `(value, context)`;
`ContextRoot.__eq__` (lines 97-106) compares the form type and then the two
stored values. -/

/-- The `contextual` form: a main value and a context describing it. -/
structure contextual (V C : Type) where
  value : V
  context : C
  deriving DecidableEq, Repr

/-- `ContextRoot.__eq__` between two values of the same `contextual` form
(the `type(self) is not type(other)` guard passes): compare the stored main
values and contexts. -/
def ctx_eq {V C : Type} [BEq V] [BEq C] (a other : contextual V C) : Bool :=
  a.value == other.value && a.context == other.context

/-- `context_oriented` (`contexting.py` lines 174-180) on a two-item
contextual-like pair `(v, c)`: `contextual(*reversed((v, c)))`, i.e. the
swapped pair as a `contextual`. -/
def context_oriented_pair {V C : Type} (root_values : V × C) : contextual C V :=
  ⟨root_values.2, root_values.1⟩

/-- `context_oriented` on a `contextual` input: iterating it yields
`(value, context)`, which is reversed and rebuilt. -/
def context_oriented {V C : Type} (root_values : contextual V C) : contextual C V :=
  ⟨root_values.context, root_values.value⟩

/-- `contexted` (`contexting.py` lines 183-204) restricted to the
`isinstance(value, ContextRoot)` branch with no forced `when` context, which
is the branch the claims exercise: unpack the root and rebuild a `contextual`
from the same value and context. -/
def contexted {V C : Type} (value : contextual V C) : contextual V C :=
  ⟨value.value, value.context⟩

/-- `saving_context` (`contexting.py` lines 207-219): perform the action on
the main value while saving the context. -/
def saving_context {V V' C : Type} (action : V → V')
    (value_and_context : contextual V C) : contextual V' C :=
  ⟨action (contexted value_and_context).value, (contexted value_and_context).context⟩

/-- `to_context` (`contexting.py` lines 222-235): perform the action on the
context while saving the main value, via the double swap of the source. -/
def to_context {V C C' : Type} (action : C → C')
    (value_and_context : contextual V C) : contextual V C' :=
  context_oriented (saving_context action (context_oriented (contexted value_and_context)))

/-- C5: For every one-argument action and every contextual pair `(v, c)`,
`saving_context` returns the contextual pair `(action v, c)` with the context
unchanged, and `to_context` returns the contextual pair `(v, action c)` with
the main value unchanged. -/
theorem c5_saving_context_and_to_context {V V' C C' : Type}
    (action : V → V') (context_action : C → C') (v : V) (c : C) :
    saving_context action ⟨v, c⟩ = ⟨action v, c⟩ ∧
    to_context context_action ⟨v, c⟩ = ⟨v, context_action c⟩ :=
  ⟨rfl, rfl⟩

/-- C6: For every two-item contextual-like pair `(v, c)`, `context_oriented`
returns the contextual pair with the two components swapped, and applying
`context_oriented` twice returns a contextual pair equal (under
`ContextRoot.__eq__`) to `contextual(v, c)`. -/
theorem c6_context_oriented_swap {V C : Type} [DecidableEq V] [DecidableEq C]
    (v : V) (c : C) :
    context_oriented_pair (v, c) = contextual.mk c v ∧
    context_oriented (context_oriented_pair (v, c)) = contextual.mk v c ∧
    ctx_eq (context_oriented (context_oriented_pair (v, c))) (contextual.mk v c)
      = true := by
  refine ⟨rfl, rfl, ?_⟩
  simp [ctx_eq, context_oriented, context_oriented_pair]

/-! ### Flag (`pyhandling/tools.py` lines 137-170)

```
def __eq__(self, other: Special[Self]) -> bool:
    return isinstance(other, Flag) and self._name == other._name
```

A Flag instance is modelled with an explicit instance id so that *separately
created* instances (distinct ids) can be told apart from *the same marker*
(the same id); `__eq__` ignores both the id and `_is_positive`, it only
compares names, and returns `False` against any non-Flag value. -/

/-- One constructed `Flag` instance: `instance_id` stands for the object
identity, `name` and `is_positive` for its `_name` and `_is_positive`
fields. -/
structure FlagInst where
  instance_id : Nat
  name : String
  is_positive : Bool
  deriving DecidableEq, Repr

/-- A Python value a Flag can be compared against: another Flag or a
non-Flag value. -/
inductive FlagOrValue where
  | flag (f : FlagInst)
  | other (v : Nat)
  deriving DecidableEq, Repr

/-- `Flag.__eq__` between two Flag instances: names are compared, identity
and sign are ignored. -/
def flag_eq (self other : FlagInst) : Bool :=
  self.name == other.name

/-- `Flag.__eq__` against an arbitrary value: the `isinstance(other, Flag)`
guard makes the comparison `False` for every non-Flag value. -/
def flag_eq_value (self : FlagInst) (other : FlagOrValue) : Bool :=
  match other with
  | .flag g => flag_eq self g
  | .other _ => false

/-- The exported `nothing` flag of `tools.py`: `Flag("nothing",
is_positive=False)`. -/
def nothing_flag : FlagInst := ⟨0, "nothing", false⟩

/-- The exported `bad` flag (`monads.py` line 38 / `utils.py` line 311):
a negative flag named `bad`. -/
def bad_flag : FlagInst := ⟨1, "bad", false⟩

/-- C4 counterexample: two separately created Flag instances (distinct
identities) with the same name compare equal under `Flag.__eq__`, so a flag
created for one signal is not distinguishable from a separately created flag
with the same name, contradicting the claim that flags compare equal only
when they are the same marker. -/
theorem c4_counterexample_same_name_flags_equal :
    flag_eq ⟨10, "stop", true⟩ ⟨11, "stop", true⟩ = true ∧
    (FlagInst.mk 10 "stop" true ≠ FlagInst.mk 11 "stop" true) := by
  refine ⟨rfl, ?_⟩
  decide

/-- C4 (amended): two Flag instances compare equal exactly when their names
are equal (identity and sign play no role), a Flag is never equal to a
non-Flag value, and `bad` and `nothing` are distinguishable from every flag
with a different name, in particular from each other. -/
theorem c4_flag_equality_is_name_equality (a b : FlagInst) (v : Nat)
    (g : FlagInst) :
    flag_eq a b = (a.name == b.name) ∧
    flag_eq_value a (.other v) = false ∧
    (flag_eq bad_flag g = true ↔ g.name = "bad") ∧
    (flag_eq nothing_flag g = true ↔ g.name = "nothing") ∧
    flag_eq bad_flag nothing_flag = false := by
  refine ⟨rfl, rfl, ?_, ?_, rfl⟩
  · simp only [flag_eq, bad_flag, beq_iff_eq]
    exact eq_comm
  · simp only [flag_eq, nothing_flag, beq_iff_eq]
    exact eq_comm

/-! ### maybe (`pyhandling/monads.py` lines 41-59)

```
stored_value, context = value

return (
    value
    if stored_value is None or context == bad
    else saving_context(action, value)
)
```

The `@discretely @will` wrappers only curry the action argument and map it
over chains; the embedded function is the per-value body.  The stored value
is an `Option` (`none` is Python `None`); the context is a Flag instance or
any other value.  `bad` itself comes from the missing `pyhandling/flags.py`;
its equality is modelled from the glossary of the spec ("a unique marker value")
together with the name-based `Flag.__eq__` of `tools.py`. -/

/-- Modelled from the spec: the comparison `context == bad` of `monads.py`.
`flags.py` (defining `flag` and the class of the `bad` flag) is not under
`src/`; per the flag/sentinel glossary of the spec and the `Flag.__eq__` of
`tools.py`, a
context equals `bad` exactly when it is a flag marker named `"bad"`, and a
non-flag context is never equal to it. -/
def is_bad (context : FlagOrValue) : Bool :=
  match context with
  | .flag f => flag_eq f bad_flag
  | .other _ => false

/-- `maybe(action)(value)` from `monads.py`: return the pair unchanged when
the stored value is `None` or the context equals `bad`, else perform the
action on the stored value while saving the context. -/
def maybe {α : Type} (action : Option α → Option α)
    (value : contextual (Option α) FlagOrValue) : contextual (Option α) FlagOrValue :=
  if value.value.isNone || is_bad value.context then value
  else saving_context action value

/-- C2: `maybe action` applied to a contextual pair `(v, c)` returns the pair
unchanged without calling the action (the result does not depend on the
action) whenever `v` is `None` or `c` is the `bad` flag, and otherwise
returns the contextual pair `(action v, c)` with the context preserved. -/
theorem c2_maybe_short_circuits {α : Type}
    (action other_action : Option α → Option α)
    (v : Option α) (c : FlagOrValue) :
    (v = none ∨ is_bad c = true →
      maybe action ⟨v, c⟩ = ⟨v, c⟩ ∧
      maybe action ⟨v, c⟩ = maybe other_action ⟨v, c⟩) ∧
    (v ≠ none → is_bad c = false → maybe action ⟨v, c⟩ = ⟨action v, c⟩) := by
  constructor
  · intro h
    have hguard : (Option.isNone v || is_bad c) = true := by
      rcases h with h1 | h2
      · subst h1; rfl
      · simp [h2]
    constructor <;> simp [maybe, hguard]
  · intro hv hc
    have hguard : (Option.isNone v || is_bad c) = false := by
      cases v with
      | none => exact absurd rfl hv
      | some a => simp [hc]
    simp [maybe, hguard, saving_context, contexted]

/-- Closed instantiation of `c2_maybe_short_circuits`: the `None` case and
the ordinary case at concrete inputs. -/
theorem c2_maybe_short_circuits_witness :
    (maybe (Option.map Nat.succ) ⟨none, FlagOrValue.other 0⟩
        = ⟨none, FlagOrValue.other 0⟩ ∧
      maybe (Option.map Nat.succ) ⟨none, FlagOrValue.other 0⟩
        = maybe id ⟨none, FlagOrValue.other 0⟩) ∧
    maybe (Option.map Nat.succ) ⟨some 3, FlagOrValue.other 0⟩
      = ⟨Option.map Nat.succ (some 3), FlagOrValue.other 0⟩ :=
  ⟨(c2_maybe_short_circuits (Option.map Nat.succ) id none (.other 0)).1 (Or.inl rfl),
    (c2_maybe_short_circuits (Option.map Nat.succ) id (some 3) (.other 0)).2
      (by simp) rfl⟩

/-! ### until_error (`pyhandling/monads.py` lines 62-84 and
`pyhandling/utils.py` lines 336-353)

The newer `monads.py` body is

```
value = contexted(value)

if pointed(value.context).that(isinstance |by| Exception) != nothing:
    return value

try:
    return saving_context(action)
except Exception as error:
    return contexted(value, +pointed(error))
```

`saving_context` is `@partially` decorated, so `saving_context(action)` with
a single argument is a *partial application*: the returned object is an
unapplied closure, `action` is never called on the stored value, and since
nothing in the `try` body runs `action`, the `except` branch is unreachable
for errors of `action`.  The older `utils.py` layer implements the
documented behaviour:

```
monadically(lambda node: lambda root: (
    rollbackable(
        node |then>> (ContextRoot |by| root.context),
        lambda error: ContextRoot(root.value, error),
    )(root.value)
    if not isinstance(root.context, Exception)
    else root
))
```

Exceptions are opaque ids (`Nat`); an action that can raise returns
`Except Nat _`. -/

/-- A context as `until_error` sees it: an recorded exception, the `nothing`
flag, or any other plain value.  Modelled from the spec for the error test:
`pointed(context).that(isinstance |by| Exception) != nothing` of the missing
`flags.py` reduces, for single-valued contexts, to "the context records an
exception", which is also exactly `isinstance(root.context, Exception)` of
`utils.py`. -/
inductive ECtx where
  | exc (e : Nat)
  | nothingCtx
  | plain (c : Nat)
  deriving DecidableEq, Repr

/-- Whether a context records an error. -/
def has_error (context : ECtx) : Bool :=
  match context with
  | .exc _ => true
  | .nothingCtx => false
  | .plain _ => false

/-- Result of one `monads.py` `until_error` step: either a contextual pair or
the unapplied partial application `saving_context(action)` that the `try`
branch actually returns. -/
inductive UEResult (α : Type) where
  | root (p : contextual α ECtx)
  | unapplied_closure
  deriving DecidableEq, Repr

/-- `until_error(action)(value)` as written in `monads.py`: with an
error-recording context the pair is returned unchanged; otherwise the branch
`return saving_context(action)` yields the unapplied closure without ever
calling `action`, so no exception of `action` can be caught. -/
def until_error_monads {α : Type} (action : α → α)
    (value : contextual α ECtx) : UEResult α :=
  if has_error (contexted value).context then .root (contexted value)
  else .unapplied_closure

/-- `until_error` of `utils.py`: skip when the context is an exception; else
run the node on the stored value, keeping the context on success and
recording the raised error as the context of the last valid value on
failure. -/
def until_error_utils {α : Type} (node : α → Except Nat α)
    (root : contextual α ECtx) : contextual α ECtx :=
  if has_error root.context then root
  else
    match node root.value with
    | .ok result => ⟨result, root.context⟩
    | .error error => ⟨root.value, .exc error⟩

/-- C3 (code bug): at the concrete input `(3, nothing)` with the total action
`Nat.succ`, the `monads.py` `until_error` returns the unapplied closure
`saving_context(action)` instead of the contextual pair `(succ 3, nothing)`,
and its result does not depend on the action at all (the action is never
called); the older `utils.py` `until_error` exhibits exactly the behaviour
the claim and the docstring state: success keeps the context, a raised error
is recorded as context of the last valid value, and an error-recording
context passes through unchanged. -/
theorem c3_until_error_monads_returns_closure :
    until_error_monads Nat.succ ⟨3, ECtx.nothingCtx⟩ = UEResult.unapplied_closure ∧
    until_error_monads Nat.succ ⟨3, ECtx.nothingCtx⟩
      ≠ UEResult.root ⟨Nat.succ 3, ECtx.nothingCtx⟩ ∧
    (∀ g : Nat → Nat, until_error_monads g ⟨3, ECtx.nothingCtx⟩
      = until_error_monads Nat.succ ⟨3, ECtx.nothingCtx⟩) ∧
    until_error_utils (fun n => Except.ok (Nat.succ n)) ⟨3, ECtx.nothingCtx⟩
      = ⟨Nat.succ 3, ECtx.nothingCtx⟩ ∧
    until_error_utils (fun _ => Except.error 7) ⟨3, ECtx.nothingCtx⟩
      = ⟨3, ECtx.exc 7⟩ ∧
    (∀ node : Nat → Except Nat Nat,
      until_error_utils node ⟨3, ECtx.exc 9⟩ = ⟨3, ECtx.exc 9⟩) :=
  ⟨rfl, by decide, fun g => rfl, rfl, rfl, fun node => rfl⟩
/-! ### ArgumentKey and ArgumentPack (`pyhandling/tools.py` lines 174-262)

`ArgumentKey` is a frozen dataclass whose `default` field does not take part
in comparison; the keys a pack itself generates are `ArgumentKey(i)` for
each positional index `i` in `range(len(args))` and `ArgumentKey(name,
is_keyword=True)` for each keyword name, so `argument in pack` only looks at
the key and its kind.  `__getitem__` is

```
return (
    (self.kwargs if argument.is_keyword else self.args)[argument.key]
    if argument in self or argument.default is nothing
    else argument.default
)
```

The embedding fuses `key` and `is_keyword` into one well-typed key: an
arbitrary (possibly negative) integer for a positional key, a string for a
keyword key; the `nothing` sentinel default is `Option.none`.  The indexing
branch `self.args[argument.key]` carries the full Python tuple-indexing
semantics: a negative index counts from the end (`args[-1]` is the last
element) and only an index out of range in both directions raises
`IndexError`.  A negative key is never contained (the generated keys are the
indices `0 .. len-1`), so with the `nothing` default it still reaches the
indexing branch and, when in range from the end, returns an element instead
of raising. -/

/-- A well-typed argument key: positional integer index (negative indices
allowed, as for any Python int) or keyword name. -/
inductive AKey where
  | pos (index : Int)
  | kw (name : String)
  deriving DecidableEq, Repr

/-- `ArgumentKey` with its `default` field; `none` is the `nothing`
sentinel. -/
structure ArgumentKey (α : Type) where
  key : AKey
  default : Option α
  deriving DecidableEq, Repr

/-- `ArgumentPack`: stored positional arguments and keyword arguments. -/
structure ArgumentPack (α : Type) where
  args : List α
  kwargs : List (String × α)
  deriving DecidableEq, Repr

/-- `ArgumentPack.__contains__` via the generated `keys`: a positional key is
contained when it equals one of the indices `0 .. len(args)-1`, a keyword key
when its name is among the stored keyword names; defaults are ignored by the
dataclass equality. -/
def containsArg {α : Type} (pack : ArgumentPack α) (argument : ArgumentKey α) : Bool :=
  match argument.key with
  | .pos index => decide (0 ≤ index ∧ index < (pack.args.length : Int))
  | .kw name => (pack.kwargs.lookup name).isSome

/-- Python tuple indexing `args[index]` for an int index: a nonnegative
in-range index selects directly, a negative index has the length added first
(so `args[-1]` is the last element), and anything out of range in both
directions is `IndexError` (modelled by `none`). -/
def py_tuple_get {α : Type} (args : List α) (index : Int) : Option α :=
  if 0 ≤ index then args[index.toNat]?
  else if 0 ≤ index + (args.length : Int) then args[(index + (args.length : Int)).toNat]?
  else none

/-- The stored argument a key designates under Python indexing, when any. -/
def stored_at {α : Type} (pack : ArgumentPack α) (key : AKey) : Option α :=
  match key with
  | .pos index => py_tuple_get pack.args index
  | .kw name => pack.kwargs.lookup name

/-- The indexing branch `(self.kwargs if argument.is_keyword else
self.args)[argument.key]`: positional access follows Python tuple indexing
(including negative indices) and raises `IndexError` only when out of range
in both directions; a missing keyword raises `KeyError`. -/
def pack_index {α : Type} (pack : ArgumentPack α) (key : AKey) : Except PyErr α :=
  match key with
  | .pos index =>
      match py_tuple_get pack.args index with
      | some v => Except.ok v
      | none => Except.error PyErr.indexError
  | .kw name =>
      match pack.kwargs.lookup name with
      | some v => Except.ok v
      | none => Except.error PyErr.keyError

/-- `ArgumentPack.__getitem__` (`tools.py` lines 221-226): index when the key
is contained or its default is the `nothing` sentinel, else return the
default. -/
def getitem {α : Type} (pack : ArgumentPack α) (argument : ArgumentKey α) :
    Except PyErr α :=
  match containsArg pack argument, argument.default with
  | true, _ => pack_index pack argument.key
  | false, none => pack_index pack argument.key
  | false, some d => Except.ok d

/-- C10 counterexample: on the pack `([10, 20], {})` the key
`ArgumentKey(-1)` is not contained and its default is the `nothing`
sentinel, yet `__getitem__` does not raise an indexing error: the indexing
branch evaluates `args[-1]` under Python negative indexing and returns the
last stored element `20`, refuting the error branch of the claim. -/
theorem c10_counterexample_negative_index :
    containsArg (⟨[10, 20], []⟩ : ArgumentPack Nat) ⟨AKey.pos (-1), none⟩ = false ∧
    (⟨AKey.pos (-1), none⟩ : ArgumentKey Nat).default = none ∧
    getitem (⟨[10, 20], []⟩ : ArgumentPack Nat) ⟨AKey.pos (-1), none⟩ = Except.ok 20 ∧
    ∀ e : PyErr,
      getitem (⟨[10, 20], []⟩ : ArgumentPack Nat) ⟨AKey.pos (-1), none⟩
        ≠ Except.error e := by
  have hval : getitem (⟨[10, 20], []⟩ : ArgumentPack Nat) ⟨AKey.pos (-1), none⟩
      = Except.ok 20 := rfl
  refine ⟨rfl, rfl, hval, ?_⟩
  intro e h
  rw [hval] at h
  exact Except.noConfusion h

/-- C10 (amended): if a key is contained in a pack, `__getitem__` returns the
stored argument regardless of the key default; if it is not contained and
carries a default other than the `nothing` sentinel, the default is
returned; and if it is not contained and its default is `nothing`, the
indexing branch runs: an absent keyword key raises `KeyError`, a negative
positional key that is in range from the end returns the stored argument
selected by Python negative indexing (no error), and a positional key out of
range in both directions raises `IndexError`. -/
theorem c10_argument_pack_getitem {α : Type}
    (pack : ArgumentPack α) (argument : ArgumentKey α) :
    (containsArg pack argument = true →
      ∃ v, stored_at pack argument.key = some v ∧
        getitem pack argument = Except.ok v ∧
        ∀ d : Option α, getitem pack ⟨argument.key, d⟩ = Except.ok v) ∧
    (containsArg pack argument = false →
      ∀ d : α, argument.default = some d → getitem pack argument = Except.ok d) ∧
    (∀ name : String, argument.key = AKey.kw name →
      containsArg pack argument = false → argument.default = none →
      getitem pack argument = Except.error PyErr.keyError) ∧
    (∀ index : Int, argument.key = AKey.pos index → argument.default = none →
      index < 0 → 0 ≤ index + (pack.args.length : Int) →
      containsArg pack argument = false ∧
      ∃ v, pack.args[(index + (pack.args.length : Int)).toNat]? = some v ∧
        getitem pack argument = Except.ok v) ∧
    (∀ index : Int, argument.key = AKey.pos index → argument.default = none →
      ((pack.args.length : Int) ≤ index ∨ index + (pack.args.length : Int) < 0) →
      getitem pack argument = Except.error PyErr.indexError) := by
  have contains_key : ∀ d : Option α,
      containsArg pack ⟨argument.key, d⟩ = containsArg pack argument := by
    intro d; cases argument; rfl
  refine ⟨?_, ?_, ?_, ?_, ?_⟩
  · intro hc
    have hsome : ∃ v, stored_at pack argument.key = some v := by
      cases hk : argument.key with
      | pos index =>
          simp only [containsArg, hk] at hc
          have hrange : 0 ≤ index ∧ index < (pack.args.length : Int) :=
            of_decide_eq_true hc
          have htn : index.toNat < pack.args.length := by omega
          refine ⟨pack.args[index.toNat], ?_⟩
          simp [stored_at, py_tuple_get, if_pos hrange.1, List.getElem?_eq_getElem htn]
      | kw name =>
          simp only [containsArg, hk] at hc
          rcases Option.isSome_iff_exists.mp hc with ⟨v, hv⟩
          exact ⟨v, by simp [stored_at, hv]⟩
    rcases hsome with ⟨v, hv⟩
    have hindex : pack_index pack argument.key = Except.ok v := by
      cases hk : argument.key with
      | pos index => rw [hk] at hv; simp_all [pack_index, stored_at]
      | kw name => rw [hk] at hv; simp_all [pack_index, stored_at]
    refine ⟨v, hv, ?_, ?_⟩
    · unfold getitem
      rw [hc]
      exact hindex
    · intro d
      unfold getitem
      rw [contains_key d, hc]
      exact hindex
  · intro hc d hd
    unfold getitem
    rw [hc, hd]
  · intro name hk hc hd
    unfold getitem
    rw [hc, hd, hk]
    have hnc : (pack.kwargs.lookup name).isSome = false := by
      simpa [containsArg, hk] using hc
    cases hlook : pack.kwargs.lookup name with
    | some v => simp [hlook] at hnc
    | none => simp [pack_index, hlook]
  · intro index hk hd hneg hin
    have hcf : containsArg pack argument = false := by
      simp only [containsArg, hk]
      exact decide_eq_false (by omega)
    have hlt : (index + (pack.args.length : Int)).toNat < pack.args.length := by omega
    have hpy : py_tuple_get pack.args index
        = some (pack.args[(index + (pack.args.length : Int)).toNat]) := by
      unfold py_tuple_get
      rw [if_neg (by omega : ¬ (0 : Int) ≤ index), if_pos hin,
        List.getElem?_eq_getElem hlt]
    refine ⟨hcf, pack.args[(index + (pack.args.length : Int)).toNat],
      List.getElem?_eq_getElem hlt, ?_⟩
    unfold getitem
    rw [hcf, hd]
    show pack_index pack argument.key = _
    rw [hk]
    simp [pack_index, hpy]
  · intro index hk hd hout
    have hcf : containsArg pack argument = false := by
      simp only [containsArg, hk]
      exact decide_eq_false (by omega)
    have hpy : py_tuple_get pack.args index = none := by
      unfold py_tuple_get
      rcases hout with h1 | h2
      · have h0 : (0 : Int) ≤ index := by omega
        rw [if_pos h0,
          List.getElem?_eq_none (by omega : pack.args.length ≤ index.toNat)]
      · rw [if_neg (by omega : ¬ (0 : Int) ≤ index),
          if_neg (by omega : ¬ (0 : Int) ≤ index + (pack.args.length : Int))]
    unfold getitem
    rw [hcf, hd]
    show pack_index pack argument.key = _
    rw [hk]
    simp [pack_index, hpy]

/-- Closed instantiation of `c10_argument_pack_getitem` on the pack
`([10, 20], {"a": 1})`: a contained positional key, an absent key with a
default, an absent keyword key with the `nothing` default, the negative key
`-1` with the `nothing` default (returning the last element), and the keys
`5` and `-3` with the `nothing` default (raising `IndexError`). -/
theorem c10_argument_pack_getitem_witness :
    (∃ v, stored_at (⟨[10, 20], [("a", 1)]⟩ : ArgumentPack Nat) (AKey.pos 0) = some v ∧
      getitem ⟨[10, 20], [("a", 1)]⟩ ⟨AKey.pos 0, none⟩ = Except.ok v ∧
      ∀ d : Option Nat,
        getitem ⟨[10, 20], [("a", 1)]⟩ ⟨AKey.pos 0, d⟩ = Except.ok v) ∧
    getitem (⟨[10, 20], [("a", 1)]⟩ : ArgumentPack Nat) ⟨AKey.pos 5, some 99⟩
      = Except.ok 99 ∧
    getitem (⟨[10, 20], [("a", 1)]⟩ : ArgumentPack Nat) ⟨AKey.kw "z", none⟩
      = Except.error PyErr.keyError ∧
    (containsArg (⟨[10, 20], [("a", 1)]⟩ : ArgumentPack Nat) ⟨AKey.pos (-1), none⟩
        = false ∧
      ∃ v, (⟨[10, 20], [("a", 1)]⟩ : ArgumentPack Nat).args[
          ((-1 : Int) + (((⟨[10, 20], [("a", 1)]⟩ : ArgumentPack Nat).args.length : Int))).toNat]?
        = some v ∧
        getitem (⟨[10, 20], [("a", 1)]⟩ : ArgumentPack Nat) ⟨AKey.pos (-1), none⟩
          = Except.ok v) ∧
    getitem (⟨[10, 20], [("a", 1)]⟩ : ArgumentPack Nat) ⟨AKey.pos 5, none⟩
      = Except.error PyErr.indexError ∧
    getitem (⟨[10, 20], [("a", 1)]⟩ : ArgumentPack Nat) ⟨AKey.pos (-3), none⟩
      = Except.error PyErr.indexError :=
  ⟨(c10_argument_pack_getitem ⟨[10, 20], [("a", 1)]⟩ ⟨AKey.pos 0, none⟩).1 rfl,
    (c10_argument_pack_getitem ⟨[10, 20], [("a", 1)]⟩ ⟨AKey.pos 5, some 99⟩).2.1
      (by decide) 99 rfl,
    (c10_argument_pack_getitem ⟨[10, 20], [("a", 1)]⟩ ⟨AKey.kw "z", none⟩).2.2.1
      "z" rfl (by decide) rfl,
    (c10_argument_pack_getitem ⟨[10, 20], [("a", 1)]⟩ ⟨AKey.pos (-1), none⟩).2.2.2.1
      (-1) rfl rfl (by decide) (by decide),
    (c10_argument_pack_getitem ⟨[10, 20], [("a", 1)]⟩ ⟨AKey.pos 5, none⟩).2.2.2.2
      5 rfl rfl (Or.inl (by decide)),
    (c10_argument_pack_getitem ⟨[10, 20], [("a", 1)]⟩ ⟨AKey.pos (-3), none⟩).2.2.2.2
      (-3) rfl rfl (Or.inr (by decide))⟩

end Pyhandling
